import Mathlib

/-
Verification of the disk-osg condor reporting library: a shallow embedding of
lib/config.py, lib/matcher.py, lib/condor.py, lib/summary.py and lib/tools.py,
followed by theorems about the embedded definitions.

Conventions of the embedding:
- Python numbers are modelled as Nat, Int or Rat; float formatting with two
  decimals is modelled as exact rational rounding to two decimal places.
- Python None-able values are Option; a raised exception is an Except error.
- The filesystem is a function from a path to an optional list of lines.
- The current time is an explicit integer timestamp parameter.
-/

namespace Clas12

/-! ## config.py -/

def null_field : String := "-"

/-- Mapping of the numeric condor job status to its display letter
(config.job_states).  The source dict raises KeyError outside 0..6; records
carry valid codes, so out-of-range codes map to a junk letter here. -/
def job_states (n : ℕ) : Char :=
  match n with
  | 0 => 'U'
  | 1 => 'I'
  | 2 => 'R'
  | 3 => 'X'
  | 4 => 'C'
  | 5 => 'H'
  | 6 => 'E'
  | _ => '?'

/-! ## Python string and number primitives -/

/-- Rounding a rational to two decimal places: the model of the Python
string format with two decimals applied to a float. -/
def round2 (q : ℚ) : ℚ := ((round (q * 100) : ℤ) : ℚ) / 100

/-- Rounding a rational to one decimal place (used to state the one-decimal
reading of the spec). -/
def round1 (q : ℚ) : ℚ := ((round (q * 10) : ℤ) : ℚ) / 10

/-- Python hay.find(pat) >= 0: pat occurs as a contiguous substring of hay. -/
def strContains (hay pat : String) : Bool :=
  (List.range (hay.toList.length + 1)).any
    (fun i => pat.toList.isPrefixOf (hay.toList.drop i))

/-- Index of the first occurrence of pat in hay, if any. -/
def idxOfFirst (hay pat : List Char) : Option ℕ :=
  (List.range (hay.length + 1)).find? (fun i => pat.isPrefixOf (hay.drop i))

/-- Index of the last occurrence of pat in hay, if any. -/
def idxOfLast (hay pat : List Char) : Option ℕ :=
  ((List.range (hay.length + 1)).reverse).find? (fun i => pat.isPrefixOf (hay.drop i))

/-- Lower-casing of one character (Python str.lower restricted to ASCII, the
only characters these files contain). -/
def charLower (c : Char) : Char :=
  if 'A' ≤ c && c ≤ 'Z' then Char.ofNat (c.toNat + 32) else c

/-- Python s.lower(). -/
def strLower (s : String) : String := (s.toList.map charLower).asString

/-- Python s.startswith(pre). -/
def pyStartsWith (s pre : String) : Bool := pre.toList.isPrefixOf s.toList

/-- Python s[n:]. -/
def strDrop (s : String) (n : ℕ) : String := (s.toList.drop n).asString

/-- Python s[0:-n]. -/
def strDropRight (s : String) (n : ℕ) : String :=
  (s.toList.take (s.toList.length - n)).asString

/-- Python s.split(sep) for a one-character separator. -/
def splitChar (sep : Char) : List Char → List (List Char)
  | [] => [[]]
  | c :: rest =>
    if c = sep then [] :: splitChar sep rest
    else
      match splitChar sep rest with
      | [] => [[c]]
      | p :: ps => (c :: p) :: ps

/-- Split at every character satisfying p (empty pieces kept). -/
def splitPred (p : Char → Bool) : List Char → List (List Char)
  | [] => [[]]
  | c :: rest =>
    if p c then [] :: splitPred p rest
    else
      match splitPred p rest with
      | [] => [[c]]
      | q :: qs => (c :: q) :: qs

def isSpaceChar (c : Char) : Bool :=
  c = ' ' || c = '\t' || c = '\n' || c = '\r'

/-- Python str.split() with no arguments: split on whitespace runs and drop
empty pieces. -/
def pySplit (s : String) : List String :=
  ((splitPred isSpaceChar s.toList).filter (fun l => l ≠ [])).map
    (fun l => l.asString)

/-- Python s.strip(). -/
def strTrim (s : String) : String :=
  (((s.toList.dropWhile isSpaceChar).reverse.dropWhile isSpaceChar).reverse).asString

def digitsToNatGo (acc : ℕ) : List Char → Option ℕ
  | [] => some acc
  | c :: rest =>
    if '0' ≤ c && c ≤ '9' then digitsToNatGo (acc * 10 + (c.toNat - 48)) rest
    else none

/-- Python int(s) on an already-stripped token: an optional sign followed by
one or more digits. -/
def pyToInt (s : String) : Option ℤ :=
  match s.toList with
  | [] => none
  | '-' :: rest =>
    if rest = [] then none else (digitsToNatGo 0 rest).map (fun n => -(n : ℤ))
  | '+' :: rest =>
    if rest = [] then none else (digitsToNatGo 0 rest).map (fun n => (n : ℤ))
  | l => (digitsToNatGo 0 l).map (fun n => (n : ℤ))

def strIntercalate (sep : String) : List String → String
  | [] => ""
  | [a] => a
  | a :: rest => a ++ sep ++ strIntercalate sep rest

/-- Last component of s split on sep (Python s.split(sep).pop()). -/
def lastPart (s : String) (sep : Char) : String :=
  ((splitChar sep s.toList).getLastD []).asString

/-- First component of s split on sep (Python s.split(sep).pop(0)). -/
def firstPart (s : String) (sep : Char) : String :=
  ((splitChar sep s.toList).headD []).asString

/-- Python str(x) for an optional string: None prints as the word None. -/
def pyStrOpt : Option String → String
  | none => "None"
  | some s => s

/-- Python str(x) for an optional integer: None prints as the word None. -/
def pyStrOptInt : Option ℤ → String
  | none => "None"
  | some i => toString i

instance {ε α : Type} [DecidableEq ε] [DecidableEq α] : DecidableEq (Except ε α) :=
  fun x y =>
  match x, y with
  | Except.ok a, Except.ok b => decidable_of_iff (a = b) (by simp)
  | Except.error a, Except.error b => decidable_of_iff (a = b) (by simp)
  | Except.ok _, Except.error _ => isFalse (fun h => Except.noConfusion h)
  | Except.error _, Except.ok _ => isFalse (fun h => Except.noConfusion h)

/-! ## matcher.py -/

/-- A Matcher holds positive criteria and dash-stripped veto criteria
(Matcher.__init__ walks the input once, routing dash-prefixed values to
antivalues with the dash stripped and the rest to values, keeping order). -/
structure Matcher where
  values : List String
  antivalues : List String
deriving DecidableEq, Repr

def Matcher.init (vs : List String) : Matcher :=
  { values := vs.filter (fun v => !(pyStartsWith v "-"))
    antivalues := (vs.filter (fun v => pyStartsWith v "-")).map (fun v => strDrop v 1) }

/-- Matcher.matches: exact-membership semantics. -/
def Matcher.matches (m : Matcher) (value : String) : Bool :=
  if m.values.length > 0 && !(m.values.contains value) then false
  else if m.antivalues.length > 0 && m.antivalues.contains value then false
  else true

/-- The positive loop of Matcher.pattern_matches.  In the source, found is
reset at the top of each iteration and the break fires as soon as the first
criterion is tested, so only the head of values is ever consulted: the loop
returns true when the head criterion contains the value as a substring and
false otherwise; an empty list passes. -/
def patternPositive : List String → String → Bool
  | [], _ => true
  | v :: _, value => strContains v value

/-- Matcher.pattern_matches as written in the source: the positive stage is
patternPositive (note the source tests v.find(str(value)), the criterion
containing the value, not the reverse), then any veto containing the value as
a substring rejects. -/
def Matcher.pattern_matches (m : Matcher) (value : String) : Bool :=
  if !(patternPositive m.values value) then false
  else if m.antivalues.any (fun v => strContains v value) then false
  else true

/-- Modelled from the spec's words for claim C1: pattern matching accepts a
value exactly when every stored positive criterion occurs as a substring of
the value and no veto occurs as a substring of the value. -/
def pattern_matches_spec (m : Matcher) (value : String) : Bool :=
  m.values.all (fun v => strContains value v) &&
    m.antivalues.all (fun v => !(strContains value v))

/-! ## The job record model -/

/-- Raw scheduler-supplied attributes of one record (the fields of the condor
JSON object that the pipeline reads).  Fields the source reads with dict
indexing are required; fields it reads with .get or guards are Option. -/
structure RawJob where
  ClusterId : ℕ
  ProcId : ℕ
  JobStatus : ℕ
  NumJobStarts : ℕ
  TotalSubmitProcs : ℕ
  RemoteUserCpu : ℚ
  CumulativeSlotTime : ℚ
  CumulativeRemoteUserCpu : ℚ
  JobCurrentStartDate : Option ℤ
  CompletionDate : Option ℤ
  UserLog : Option String
  Args : Option String
  RemoteHost : Option String
  LastRemoteHost : Option String
  MATCH_GLIDEIN_Site : Option String
  ExitCode : Option ℤ
deriving DecidableEq, Repr

/-- A normalized record: the raw fields (LastRemoteHost and ExitCode possibly
rewritten by the normalizer) plus the derived fields condor_munge assigns. -/
structure Job extends RawJob where
  user : Option String
  gemc : Option String
  host : Option String
  condor : Option String
  stderr : Option String
  stdout : Option String
  eff : Option ℚ
  ceff : Option ℚ
  wallhr : Option ℚ
  generator : Option String
  condorid : String
  gemcjob : String
deriving DecidableEq, Repr

/-! ## condor.py: wall hours -/

/-- condor_calc_wallhr: non-null only for Completed or Running records with a
positive start timestamp; the end is the completion timestamp when present and
positive, else the current time; the difference in hours is formatted with two
decimals (modelled by round2). -/
def condor_calc_wallhr (j : RawJob) (now : ℤ) : Option ℚ :=
  if job_states j.JobStatus = 'C' ∨ job_states j.JobStatus = 'R' then
    match j.JobCurrentStartDate with
    | some s =>
      if s > 0 then
        let e := match j.CompletionDate with
          | some e0 => if e0 > 0 then e0 else now
          | none => now
        some (round2 (((e - s : ℤ) : ℚ) / 60 / 60))
      else none
    | none => none
  else none

/-! ## condor.py: the log path pattern of config.log_regex -/

def isLowerChar (c : Char) : Bool := 'a' ≤ c && c ≤ 'z'

def isDigitChar (c : Char) : Bool := '0' ≤ c && c ≤ '9'

/-- Match config.log_regex at the head of cs, returning the four groups
(user, gemc id, cluster id, proc id).  The pattern pieces draw on disjoint
character classes, so the greedy maximal-munch below is equivalent to the
backtracking regex engine on this pattern. -/
def matchLogAt (cs : List Char) : Option (String × String × String × String) :=
  match cs with
  | '/' :: r0 =>
    let u := (r0.span isLowerChar).1
    let r1 := (r0.span isLowerChar).2
    if u.isEmpty then none
    else if ("/job_".toList).isPrefixOf r1 then
      let r2 := r1.drop 5
      let g := (r2.span isDigitChar).1
      let r3 := (r2.span isDigitChar).2
      if g.isEmpty then none
      else if ("/log/job.".toList).isPrefixOf r3 then
        let r4 := r3.drop 9
        let c := (r4.span isDigitChar).1
        let r5 := (r4.span isDigitChar).2
        if c.isEmpty then none
        else
          match r5 with
          | '.' :: r6 =>
            let p := (r6.span isDigitChar).1
            let r7 := (r6.span isDigitChar).2
            if p.isEmpty then none
            else
              match r7 with
              | '.' :: _ => some (u.asString, g.asString, c.asString, p.asString)
              | _ => none
          | _ => none
      else none
    else none
  | _ => none

/-- Python re.search of config.log_regex over the whole path: the leftmost
position where the pattern matches. -/
def logPathParse (s : String) : Option (String × String × String × String) :=
  (List.range (s.toList.length + 1)).findSome? (fun i => matchLogAt (s.toList.drop i))

/-! ## condor.py: the generator-name cache -/

/-- os.path.dirname for POSIX paths: everything up to the last slash, with
trailing slashes stripped unless the head is all slashes. -/
def dirname (s : String) : String :=
  let cs := s.toList
  match idxOfLast cs ['/'] with
  | none => ""
  | some i =>
    let head := cs.take (i + 1)
    if head.isEmpty || head.all (fun c => c = '/') then head.asString
    else ((head.reverse.dropWhile (fun c => c = '/')).reverse).asString

def genMarker : String := "events with generator >"

def genMarkerEnd : String := "< with options"

/-- The generator-name regex of get_generator applied to a lowered line: the
group spans from the first occurrence of the opening marker to the last
occurrence of the closing marker after it (the greedy group of the source's
pattern). -/
def genExtract (low : String) : Option String :=
  match idxOfFirst low.toList genMarker.toList with
  | none => none
  | some i =>
    let after := low.toList.drop (i + genMarker.toList.length)
    match idxOfLast after genMarkerEnd.toList with
    | none => none
    | some j => some ((after.take j).asString)

/-- One line of the nodeScript scan in get_generator.  The line is lowered
first; note the second and third markers of the source compare against
strings containing uppercase letters, kept verbatim here. -/
def gen_line_value (l : String) : Option String :=
  let low := strLower l
  match genExtract low with
  | some name => some (if pyStartsWith name "clas12-" then strDrop name 7 else name)
  | none =>
    if pyStartsWith low "echo LUND Event File:" then some "lund"
    else if pyStartsWith low "gemc" && !(strContains low "INPUT") then some "gemc"
    else none

def scanScript (lines : List String) : Option String := lines.findSome? gen_line_value

/-- Keys of the module-level generators dict: the source mixes the integer
cluster id (in the membership test) and the literal string ClusterId (in every
assignment and in the final lookup), so both key kinds are modelled. -/
inductive GenKey where
  | num (n : ℕ)
  | str (s : String)
deriving DecidableEq, Repr

abbrev GenCache := List (GenKey × String)

def cacheLookup (c : GenCache) (k : GenKey) : Option String :=
  (c.find? (fun p => p.1 == k)).map (fun p => p.2)

/-- Python dict assignment: replace in place when the key exists, else append
(insertion order preserved). -/
def cacheInsert (c : GenCache) (k : GenKey) (v : String) : GenCache :=
  if (c.find? (fun p => p.1 == k)).isSome then
    c.map (fun p => if p.1 == k then (k, v) else p)
  else c ++ [(k, v)]

/-- The filesystem, abstracted: path to optional list of lines (tools.readlines
yields nothing for a missing file). -/
abbrev FS := String → Option (List String)

/-- get_generator from condor.py.  The membership test asks whether the
record's integer ClusterId is a key of the cache, but every assignment and the
returned lookup use the literal string ClusterId as the key.  The third
component counts the invocations of the readlines scan over the companion
nodeScript.sh (0 or 1 for this call). -/
def get_generator (fs : FS) (cache : GenCache) (job : RawJob) :
    Option String × GenCache × ℕ :=
  if (cacheLookup cache (GenKey.num job.ClusterId)).isSome then
    (cacheLookup cache (GenKey.str "ClusterId"), cache, 0)
  else
    let c1 := cacheInsert cache (GenKey.str "ClusterId") null_field
    match job.UserLog with
    | none => (cacheLookup c1 (GenKey.str "ClusterId"), c1, 0)
    | some p =>
      let script := dirname (dirname p) ++ "/nodeScript.sh"
      let lines := (fs script).getD []
      let c2 := match scanScript lines with
        | some v => cacheInsert c1 (GenKey.str "ClusterId") v
        | none => c1
      (cacheLookup c2 (GenKey.str "ClusterId"), c2, 1)

/-! ## condor.py: the global tally -/

structure Tallies where
  goodwall : ℚ
  badwall : ℚ
  goodcpu : ℚ
  badcpu : ℚ
  goodattempts : ℕ
  badattempts : ℕ
  attempts : List ℕ
  totalwall : ℚ
  totalcpu : ℚ
deriving DecidableEq, Repr

/-- The zeroed module-level tallies.  The source dict initially lacks the two
total keys; they are written on the first condor_tally call, so starting them
at zero is observationally equal for any nonempty ingestion. -/
def tallies_init : Tallies :=
  { goodwall := 0, badwall := 0, goodcpu := 0, badcpu := 0,
    goodattempts := 0, badattempts := 0, attempts := [],
    totalwall := 0, totalcpu := 0 }

/-- The wall-hours number condor_tally reads from a record.  The source applies
float to the stored field and would raise on a null value; the branches below
only read it for Completed or Running records, and the claims range over
records the source tallies without raising, so the null case maps to zero. -/
def wallhrQ (j : Job) : ℚ := j.wallhr.getD 0

/-- condor_tally from condor.py, one ingestion step. -/
def condor_tally (t : Tallies) (j : Job) : Tallies :=
  let st := job_states j.JobStatus
  let t1 :=
    if st = 'C' ∨ st = 'R' then
      let ta := if j.NumJobStarts > 0 then
          { t with attempts := t.attempts ++ [j.NumJobStarts] } else t
      let tb := if st = 'C' then
          { ta with goodattempts := ta.goodattempts + 1,
                    goodwall := ta.goodwall + wallhrQ j * 60 * 60,
                    goodcpu := ta.goodcpu + j.RemoteUserCpu }
        else ta
      if j.NumJobStarts > 1 then
        { tb with badattempts := tb.badattempts + (j.NumJobStarts - 1),
                  badwall := tb.badwall + (j.CumulativeSlotTime - wallhrQ j * 60 * 60),
                  badcpu := tb.badcpu + (j.CumulativeRemoteUserCpu - j.RemoteUserCpu) }
      else tb
    else if j.NumJobStarts > 0 ∧ st ≠ 'X' then
      { t with badattempts := t.badattempts + j.NumJobStarts,
               badwall := t.badwall + j.CumulativeSlotTime,
               badcpu := t.badcpu + j.CumulativeRemoteUserCpu }
    else t
  { t1 with totalwall := t1.badwall + t1.goodwall, totalcpu := t1.badcpu + t1.goodcpu }

def get_status_key (j : Job) : String :=
  if job_states j.JobStatus = 'H' then "held"
  else if job_states j.JobStatus = 'I' then "idle"
  else if job_states j.JobStatus = 'R' then "run"
  else if job_states j.JobStatus = 'C' then "done"
  else "other"

/-! ## The run context (the argparse namespace fields the pipeline reads) -/

structure Args where
  condor : List String
  site : List String
  gemc : List String
  user : List String
  exit : List String
  generator : List String
  host : List String
  noexit : Bool
  idle : Bool
  completed : Bool
  running : Bool
  held : Bool
  plot : Bool
  parseexit : Bool
  hours : ℤ
  /-- args.end as a timestamp: the report window ceiling. -/
  endTime : ℤ
deriving DecidableEq, Repr

/-! ## tools.py: exit-code extraction -/

/-- One candidate line of get_exit_code: exactly two whitespace-separated
tokens, the first the word exit, the second parsed as an integer (a parse
failure is swallowed and the scan continues). -/
def lineExitVal (l : String) : Option ℤ :=
  match pySplit (strTrim l) with
  | [a, b] => if a = "exit" then pyToInt b else none
  | _ => none

/-- get_exit_code from tools.py: scan the trailing lines of the error log for
an exit line.  The source walks the file backwards with readlines_reverse and
its counter admits up to four trailing newline-terminated lines before
stopping; a null path yields nothing. -/
def get_exit_code (fs : FS) (stderrPath : Option String) : Option ℤ :=
  match stderrPath with
  | none => none
  | some p => (((fs p).getD []).reverse.take 4).findSome? lineExitVal

/-! ## condor.py: the normalizer -/

/-- The exceptions condor_munge can raise while normalizing one record. -/
inductive MungeErr where
  /-- AttributeError: a missing Args string makes the gemcjob line call split
  on None. -/
  | argsNone
  /-- ValueError: condor ids do not match (the fatal consistency error). -/
  | idMismatch
  /-- TypeError: the efficiency line calls float on a null wall-hours field of
  a Completed record. -/
  | effWallhrNone
deriving DecidableEq, Repr

/-- condor_munge, restricted to one record of the map: computes every derived
field in source order and threads the generator cache.  The statements below
feed the result into condor_tally exactly as the source's per-record loop
does. -/
def condor_munge_job (args : Args) (fs : FS) (now : ℤ) (cache : GenCache)
    (key : String) (raw : RawJob) : Except MungeErr (Job × GenCache) := do
  let gen := get_generator fs cache raw
  let generator := gen.1
  let cache1 := gen.2.1
  let wallhr := condor_calc_wallhr raw now
  let condorid := toString raw.ClusterId ++ "." ++ toString raw.ProcId
  let argsStr ← match raw.Args with
    | none => Except.error MungeErr.argsNone
    | some a => Except.ok a
  let gemcjob := strIntercalate "." ((pySplit argsStr).take 2)
  let parsed := raw.UserLog.bind logPathParse
  let user := parsed.map (fun q => q.1)
  let gemc := parsed.map (fun q => q.2.1)
  let condor := parsed.map (fun q => q.2.2.1 ++ "." ++ q.2.2.2)
  let stderr := if parsed.isSome then raw.UserLog.map (fun p => strDropRight p 4 ++ ".err") else none
  let stdout := if parsed.isSome then raw.UserLog.map (fun p => strDropRight p 4 ++ ".out") else none
  match condor with
  | some c => if key ≠ c then Except.error MungeErr.idMismatch else pure ()
  | none => pure ()
  let host := raw.RemoteHost.map (fun s => lastPart s '@')
  let lastRemote := raw.LastRemoteHost.map (fun s => firstPart (lastPart s '@') '.')
  let eff ← if job_states raw.JobStatus = 'C' then
      match wallhr with
      | none => Except.error MungeErr.effWallhrNone
      | some w => Except.ok (if w > 0 then some (round2 (raw.RemoteUserCpu / w / 60 / 60)) else none)
    else Except.ok (none : Option ℚ)
  let ceff : Option ℚ :=
    if raw.CumulativeSlotTime > 0 then
      if job_states raw.JobStatus = 'C' ∨ job_states raw.JobStatus = 'R' then
        some (round2 (raw.RemoteUserCpu / raw.CumulativeSlotTime))
      else some 0
    else none
  let exitCode :=
    if args.parseexit && job_states raw.JobStatus = 'H' then get_exit_code fs stderr
    else raw.ExitCode
  let job : Job :=
    { toRawJob := { raw with LastRemoteHost := lastRemote, ExitCode := exitCode }
      user := user, gemc := gemc, host := host, condor := condor,
      stderr := stderr, stdout := stdout, eff := eff, ceff := ceff,
      wallhr := wallhr, generator := generator, condorid := condorid,
      gemcjob := gemcjob }
  pure (job, cache1)

/-- condor_munge over the whole record map: normalize each record in order,
threading the generator cache and feeding every normalized record into the
global tally; the first exception aborts the whole load. -/
def condor_munge (args : Args) (fs : FS) (now : ℤ)
    (data : List (String × RawJob)) :
    Except MungeErr (List (String × Job) × GenCache × Tallies) :=
  data.foldlM
    (fun acc kv => do
      let r ← condor_munge_job args fs now acc.2.1 kv.1 kv.2
      pure (acc.1 ++ [(kv.1, r.1)], r.2, condor_tally acc.2.2 r.1))
    ([], [], tallies_init)

/-! ## condor.py: the filter engine -/

/-- The exception condor_match raises on a record whose condor field is null
(AttributeError: split called on None). -/
inductive MatchErr where
  | nullCondor
deriving DecidableEq, Repr

/-- The boolean cascade of condor_match after the condor field has been split
successfully: each early return-false of the source is one else-if rung, in
source order; the final rung is the completion-time ceiling whose KeyError on
a missing CompletionDate is swallowed by the source's try block. -/
def condor_match_body (args : Args) (j : Job) (c : String) : Bool :=
  if !((Matcher.init args.condor).matches (firstPart c '.')) then false
  else if !((Matcher.init args.gemc).matches (pyStrOpt j.gemc)) then false
  else if !((Matcher.init args.user).matches (pyStrOpt j.user)) then false
  else if !((Matcher.init args.site).pattern_matches (pyStrOpt j.MATCH_GLIDEIN_Site)) then false
  else if !((Matcher.init args.host).pattern_matches (pyStrOpt j.LastRemoteHost)) then false
  else if !((Matcher.init args.generator).matches (pyStrOpt j.generator)) then false
  else if args.noexit && j.ExitCode.isSome then false
  else if !args.noexit && !((Matcher.init args.exit).matches (pyStrOptInt j.ExitCode)) then false
  else if !args.plot && args.idle && !(job_states j.JobStatus = 'I') then false
  else if !args.plot && args.completed && !(job_states j.JobStatus = 'C') then false
  else if !args.plot && args.running && !(job_states j.JobStatus = 'R') then false
  else if !args.plot && args.held && !(job_states j.JobStatus = 'H') then false
  else
    match j.CompletionDate with
    | some e => if e > args.endTime then false else true
    | none => true

/-- condor_match from condor.py.  The source builds the seven matchers from
args once, lazily, on the first call; within one run args never change, so the
matchers are built inline.  The only raising expression is the very first one,
splitting the derived condor field, which is None when normalization could not
parse the log path; after that split every path returns a boolean. -/
def condor_match (args : Args) (j : Job) : Except MatchErr Bool :=
  match j.condor with
  | none => Except.error MatchErr.nullCondor
  | some c => Except.ok (condor_match_body args j c)

/-! ## tools.py: numeric collapses and the stable sort -/

/-- tools.average: two-decimal mean, or the null display sentinel (modelled as
none) on an empty list. -/
def average (l : List ℚ) : Option ℚ :=
  if l.length > 0 then some (round2 (l.sum / l.length)) else none

/-- tools.stddev computes the population deviation around the two-decimal
rounded mean and displays its square root with two decimals.  The square root
is irrational in general, so the model carries the value under the root,
which determines the display monotonically; none is the empty-list
sentinel. -/
def stddev_presqrt (l : List ℚ) : Option ℚ :=
  if l.length > 0 then
    let m := round2 (l.sum / l.length)
    some ((l.map (fun x => (x - m) * (x - m))).sum / l.length)
  else none

/-- The inner scan of tools.sort_dict: walk the already-ordered keys and
insert the new entry before the first one whose sort value is strictly
smaller; append when none is. -/
def ordIns {α : Type} (val : α → ℕ) (x : α) : List α → List α
  | [] => [x]
  | y :: ys => if val y < val x then x :: y :: ys else y :: ordIns val x ys

def sort_go {α : Type} (val : α → ℕ) : List α → List α → List α
  | acc, [] => acc
  | acc, x :: xs => sort_go val (ordIns val x acc) xs

/-- tools.sort_dict: entries in their first-seen order are inserted one by one
into the growing ordered list, each before the first strictly-smaller sort
value, giving a stable descending order by the chosen sub-key. -/
def sort_dict {α : Type} (val : α → ℕ) (l : List α) : List α := sort_go val [] l

/-! ## summary.py: association-list primitives for the OrderedDict groups -/

def alGet {κ β : Type} [DecidableEq κ] (l : List (κ × β)) (k : κ) : Option β :=
  (l.find? (fun p => decide (p.1 = k))).map (fun p => p.2)

/-- Python dict assignment on an OrderedDict: overwrite in place when the key
exists, else append. -/
def alSet {κ β : Type} [DecidableEq κ] (l : List (κ × β)) (k : κ) (v : β) :
    List (κ × β) :=
  if (l.find? (fun p => decide (p.1 = k))).isSome then
    l.map (fun p => if p.1 = k then (k, v) else p)
  else l ++ [(k, v)]

/-! ## summary.py: cluster summary -/

/-- One cluster-summary group: the bucketed counts of config.job_counts (done
is recomputed as a possibly negative difference, hence an integer), the
TotalSubmitProcs inherited from the first record of the cluster, and the raw
metric lists collapsed to means at the end. -/
structure CGroup where
  TotalSubmitProcs : ℕ
  done : ℤ
  run : ℕ
  idle : ℕ
  held : ℕ
  other : ℕ
  total : ℕ
  effs : List ℚ
  ceffs : List ℚ
  atts : List ℕ
deriving DecidableEq, Repr

/-- A fresh group: job.copy() updated with the zeroed config.job_counts; only
the fields the summary later reads are modelled, TotalSubmitProcs being the
one inherited raw field the invariant mentions. -/
def cgroup_of_job (j : Job) : CGroup :=
  { TotalSubmitProcs := j.TotalSubmitProcs, done := 0, run := 0, idle := 0,
    held := 0, other := 0, total := 0, effs := [], ceffs := [], atts := [] }

def cgroup_inc (g : CGroup) (k : String) : CGroup :=
  if k = "held" then { g with held := g.held + 1 }
  else if k = "idle" then { g with idle := g.idle + 1 }
  else if k = "run" then { g with run := g.run + 1 }
  else if k = "done" then { g with done := g.done + 1 }
  else { g with other := g.other + 1 }

/-- Folding one record into its cluster group: bump the status bucket, then
recompute done as TotalSubmitProcs minus held minus idle minus run, then the
try block appends attempts and the two efficiencies, where a null efficiency
aborts the rest of the block (the source catches the float(None) error). -/
def cgroup_apply (g : CGroup) (j : Job) : CGroup :=
  let g1 := cgroup_inc g (get_status_key j)
  let g2 := { g1 with done := (g1.TotalSubmitProcs : ℤ) - g1.held - g1.idle - g1.run }
  let g3 := if j.NumJobStarts > 0 then { g2 with atts := g2.atts ++ [j.NumJobStarts] } else g2
  match j.eff with
  | none => g3
  | some e =>
    let g4 := { g3 with effs := g3.effs ++ [e] }
    match j.ceff with
    | none => g4
    | some cf => { g4 with ceffs := g4.ceffs ++ [cf] }

def cluster_step (acc : List (String × CGroup)) (kv : String × Job) :
    List (String × CGroup) :=
  let key := firstPart kv.1 '.'
  alSet acc key (cgroup_apply ((alGet acc key).getD (cgroup_of_job kv.2)) kv.2)

def condor_cluster_fold (l : List (String × Job)) : List (String × CGroup) :=
  l.foldl cluster_step []

/-- A finalized cluster-summary group: the counts plus the collapsed means. -/
structure CGroupOut where
  TotalSubmitProcs : ℕ
  done : ℤ
  run : ℕ
  idle : ℕ
  held : ℕ
  other : ℕ
  total : ℕ
  effAvg : Option ℚ
  ceffAvg : Option ℚ
  attAvg : Option ℚ
deriving DecidableEq, Repr

def cgroup_finalize (g : CGroup) : CGroupOut :=
  { TotalSubmitProcs := g.TotalSubmitProcs, done := g.done, run := g.run,
    idle := g.idle, held := g.held, other := g.other, total := g.total,
    effAvg := average g.effs, ceffAvg := average g.ceffs,
    attAvg := average (g.atts.map (fun n => (n : ℚ))) }

/-- condor_cluster_summary over the records condor_yield admitted. -/
def condor_cluster_summary (l : List (String × Job)) : List (String × CGroupOut) :=
  (condor_cluster_fold l).map (fun p => (p.1, cgroup_finalize p.2))

/-! ## summary.py: site summary -/

structure SGroup where
  done : ℕ
  run : ℕ
  idle : ℕ
  held : ℕ
  other : ℕ
  total : ℕ
  wallhrs : List ℚ
deriving DecidableEq, Repr

def sgroup_init : SGroup :=
  { done := 0, run := 0, idle := 0, held := 0, other := 0, total := 0, wallhrs := [] }

def sgroup_inc (g : SGroup) (k : String) : SGroup :=
  if k = "held" then { g with held := g.held + 1 }
  else if k = "idle" then { g with idle := g.idle + 1 }
  else if k = "run" then { g with run := g.run + 1 }
  else if k = "done" then { g with done := g.done + 1 }
  else { g with other := g.other + 1 }

/-- Folding one record into its site group (the key may be the null site):
bump total and the status bucket, and collect wall-hours from Completed
records, or also the rest when the run asked for running jobs; a null
wall-hours is swallowed by the source's try block. -/
def site_step (args : Args) (acc : List (Option String × SGroup)) (kv : String × Job) :
    List (Option String × SGroup) :=
  let site := kv.2.MATCH_GLIDEIN_Site
  let g0 := (alGet acc site).getD sgroup_init
  let g1 := { g0 with total := g0.total + 1 }
  let g2 := sgroup_inc g1 (get_status_key kv.2)
  let g3 := if args.running || (job_states kv.2.JobStatus == 'C') then
      match kv.2.wallhr with
      | some w => { g2 with wallhrs := g2.wallhrs ++ [w] }
      | none => g2
    else g2
  alSet acc site g3

def condor_site_fold (args : Args) (l : List (String × Job)) :
    List (Option String × SGroup) :=
  l.foldl (site_step args) []

structure SGroupOut where
  /-- done becomes the null display sentinel when no history window was
  requested (args.hours non-positive). -/
  done : Option ℕ
  run : ℕ
  idle : ℕ
  held : ℕ
  other : ℕ
  total : ℕ
  wallhrAvg : Option ℚ
  ewallhrPre : Option ℚ
deriving DecidableEq, Repr

def sgroup_finalize (args : Args) (g : SGroup) : SGroupOut :=
  { done := if args.hours ≤ 0 then none else some g.done,
    run := g.run, idle := g.idle, held := g.held, other := g.other,
    total := g.total, wallhrAvg := average g.wallhrs,
    ewallhrPre := stddev_presqrt g.wallhrs }

/-- condor_site_summary over the records condor_yield admitted: group, collapse,
then sort descending by the total sub-key. -/
def condor_site_summary (args : Args) (l : List (String × Job)) :
    List (Option String × SGroupOut) :=
  sort_dict (fun p => p.2.total)
    ((condor_site_fold args l).map (fun p => (p.1, sgroup_finalize args p.2)))

/-! ## Spec-side definitions for the refinement claims -/

/-- Modelled from the claim C5 sentence as stated: wall hours are null for the
Removed, Held and Error states; otherwise the elapsed time from the start
timestamp to the completion timestamp (when present and nonzero, else the
current time) in hours to one decimal; null without a valid start. -/
def wallhr_spec_c5 (j : RawJob) (now : ℤ) : Option ℚ :=
  if job_states j.JobStatus = 'X' ∨ job_states j.JobStatus = 'H' ∨
      job_states j.JobStatus = 'E' then none
  else
    match j.JobCurrentStartDate with
    | some s =>
      if 0 < s then
        let e := match j.CompletionDate with
          | some e0 => if 0 < e0 then e0 else now
          | none => now
        some (round1 (((e - s : ℤ) : ℚ) / 3600))
      else none
    | none => none

/-- The amended C5 statement: wall hours are null unless the state is
Completed or Running (so also null for Unexpanded and Idle); for those two
states they are the elapsed time from the start timestamp to the completion
timestamp (when present and nonzero, else the current time) in hours to two
decimals; null without a valid start. -/
def wallhr_amended_c5 (j : RawJob) (now : ℤ) : Option ℚ :=
  if job_states j.JobStatus ∈ ['C', 'R'] then
    match j.JobCurrentStartDate with
    | some s =>
      if 0 < s then
        let e := match j.CompletionDate with
          | some e0 => if 0 < e0 then e0 else now
          | none => now
        some (round2 (((e - s : ℤ) : ℚ) / 3600))
      else none
    | none => none
  else none

/-! ## Per-record tally deltas (for the order-independence proofs) -/

def gwD (j : Job) : ℚ :=
  if job_states j.JobStatus = 'C' then wallhrQ j * 60 * 60 else 0

def gcD (j : Job) : ℚ :=
  if job_states j.JobStatus = 'C' then j.RemoteUserCpu else 0

def bwD (j : Job) : ℚ :=
  if job_states j.JobStatus = 'C' ∨ job_states j.JobStatus = 'R' then
    if j.NumJobStarts > 1 then j.CumulativeSlotTime - wallhrQ j * 60 * 60 else 0
  else if j.NumJobStarts > 0 ∧ job_states j.JobStatus ≠ 'X' then
    j.CumulativeSlotTime
  else 0

def bcD (j : Job) : ℚ :=
  if job_states j.JobStatus = 'C' ∨ job_states j.JobStatus = 'R' then
    if j.NumJobStarts > 1 then j.CumulativeRemoteUserCpu - j.RemoteUserCpu else 0
  else if j.NumJobStarts > 0 ∧ job_states j.JobStatus ≠ 'X' then
    j.CumulativeRemoteUserCpu
  else 0

def gaD (j : Job) : ℕ :=
  if job_states j.JobStatus = 'C' then 1 else 0

def baD (j : Job) : ℕ :=
  if job_states j.JobStatus = 'C' ∨ job_states j.JobStatus = 'R' then
    if j.NumJobStarts > 1 then j.NumJobStarts - 1 else 0
  else if j.NumJobStarts > 0 ∧ job_states j.JobStatus ≠ 'X' then
    j.NumJobStarts
  else 0

/-- The eight numeric tallies of claim C4 (everything except the attempts
list). -/
structure TallyNums where
  goodwall : ℚ
  badwall : ℚ
  goodcpu : ℚ
  badcpu : ℚ
  goodattempts : ℕ
  badattempts : ℕ
  totalwall : ℚ
  totalcpu : ℚ
deriving DecidableEq, Repr

def tallyNums (t : Tallies) : TallyNums :=
  { goodwall := t.goodwall, badwall := t.badwall, goodcpu := t.goodcpu,
    badcpu := t.badcpu, goodattempts := t.goodattempts,
    badattempts := t.badattempts, totalwall := t.totalwall,
    totalcpu := t.totalcpu }

/-- The per-record side conditions under which one condor_tally step can only
increase every tally: non-negative final-instance wall hours and CPU seconds,
and cumulative times dominating the final instance.  Non-negative raw fields
alone do not imply these. -/
def tally_dominated (j : Job) : Prop :=
  0 ≤ wallhrQ j ∧ wallhrQ j * 60 * 60 ≤ j.CumulativeSlotTime ∧
    j.RemoteUserCpu ≤ j.CumulativeRemoteUserCpu ∧ 0 ≤ j.RemoteUserCpu

instance (j : Job) : Decidable (tally_dominated j) := by
  unfold tally_dominated; infer_instance

/-! ## Concrete records used by the closed theorems -/

/-- A run context with no filters: empty criterion lists, no state toggles. -/
def argsEx : Args :=
  { condor := [], site := [], gemc := [], user := [], exit := [],
    generator := [], host := [], noexit := false, idle := false,
    completed := false, running := false, held := false, plot := false,
    parseexit := false, hours := 0, endTime := 1000000000 }

/-- An empty filesystem. -/
def fsEmpty : FS := fun _ => none

/-- A baseline raw record: a Held job with no optional fields except Args. -/
def rawBase : RawJob :=
  { ClusterId := 1, ProcId := 0, JobStatus := 5, NumJobStarts := 0,
    TotalSubmitProcs := 1, RemoteUserCpu := 0, CumulativeSlotTime := 0,
    CumulativeRemoteUserCpu := 0, JobCurrentStartDate := none,
    CompletionDate := none, UserLog := none, Args := some "11 22",
    RemoteHost := none, LastRemoteHost := none, MATCH_GLIDEIN_Site := none,
    ExitCode := none }

/-- Wrap a raw record as a normalized one with the derived wall hours of
condor_calc_wallhr; the remaining derived fields are nulls, which is all that
the tally and summary folds read. -/
def plainJob (r : RawJob) (now : ℤ) : Job :=
  { toRawJob := r, user := none, gemc := none, host := none, condor := none,
    stderr := none, stdout := none, eff := none, ceff := none,
    wallhr := condor_calc_wallhr r now, generator := none,
    condorid := toString r.ClusterId ++ "." ++ toString r.ProcId,
    gemcjob := "" }

/-- The Completed record of the C3 scenario: one attempt, one wall hour
(start 1000, completion 4600), 1800 CPU seconds. -/
def rawc3a : RawJob :=
  { rawBase with
      JobStatus := 4
      NumJobStarts := 1
      JobCurrentStartDate := some 1000
      CompletionDate := some 4600
      RemoteUserCpu := 1800
      CumulativeSlotTime := 3600
      CumulativeRemoteUserCpu := 1800 }

def jc3a : Job := plainJob rawc3a 0

/-- The Held record of the C3 scenario: two attempts, 7200 cumulative slot
seconds, 3600 cumulative CPU seconds. -/
def rawc3b : RawJob :=
  { rawBase with
      JobStatus := 5
      NumJobStarts := 2
      CumulativeSlotTime := 7200
      CumulativeRemoteUserCpu := 3600 }

def jc3b : Job := plainJob rawc3b 0

/-- The C4 counterexample record: Completed, two attempts, one derived wall
hour, but zero cumulative times; every raw time field is non-negative yet the
bad wall tally decreases by 3600 on ingestion. -/
def rawc4 : RawJob :=
  { rawBase with
      JobStatus := 4
      NumJobStarts := 2
      JobCurrentStartDate := some 1000
      CompletionDate := some 4600 }

def jc4 : Job := plainJob rawc4 0

/-- The C5 counterexample record: an Idle job with a valid start timestamp and
no completion timestamp. -/
def rawc5 : RawJob :=
  { rawBase with JobStatus := 1, JobCurrentStartDate := some 3600 }

/-- Two raw records of the same cluster (id 7) for the generator-cache claim. -/
def rawg1 : RawJob :=
  { rawBase with
      ClusterId := 7
      ProcId := 0
      UserLog := some "/u/job_11/log/job.7.0.log" }

def rawg2 : RawJob :=
  { rawBase with
      ClusterId := 7
      ProcId := 1
      UserLog := some "/u/job_11/log/job.7.1.log" }

/-- A filesystem holding the companion script of cluster 7, whose first line
triggers the gemc marker. -/
def fsGen : FS :=
  fun p => if p = "/u/job_11/nodeScript.sh" then some ["gemc something"] else none

/-- A raw record with no Args string (the rest well-formed). -/
def rawNoArgs : RawJob := { rawBase with Args := none }

/-- A Completed raw record with no valid start timestamp. -/
def rawCompNoStart : RawJob := { rawBase with JobStatus := 4 }

/-- The C7 record: a log path encoding scheduler id 7.1. -/
def raw7 : RawJob :=
  { rawBase with
      ClusterId := 7
      ProcId := 1
      UserLog := some "/u/job_11/log/job.7.1.log" }

/-- A normalized record with a non-null condor field, for the C10 witness. -/
def j10c : Job := { plainJob rawBase 0 with condor := some "1.0" }

/-- One Held record at a named site (all other fields baseline). -/
def siteJob (s : String) : Job :=
  plainJob { rawBase with MATCH_GLIDEIN_Site := some s } 0

/-- Seventeen admitted records over three sites, first seen in the order
A, B, C, with totals 5, 9 and 3. -/
def c9recs : List (String × Job) :=
  List.replicate 5 ("1.0", siteJob "A") ++ List.replicate 9 ("1.0", siteJob "B") ++
    List.replicate 3 ("1.0", siteJob "C")

/-- The one-record input of the C8 witness. -/
def c8wL : List (String × Job) := [("1.0", jc3b)]

/-- The group the C8 witness reads off the cluster summary of c8wL. -/
def c8wG : CGroupOut := cgroup_finalize (cgroup_apply (cgroup_of_job jc3b) jc3b)

/-! # Theorems -/

/-- C1: the claim states that pattern_matches accepts a value exactly when
every stored positive criterion is a substring of the value and no veto is a
substring of the value, so a Matcher with the two positive criteria ab and cd
must accept abcd.  The code instead asks whether the value is a substring of
the first positive criterion: it rejects abcd against the two criteria ab and
cd although both are contained in it, and it accepts the value b against the
single criterion abc although abc is not contained in b. -/
theorem c1_pattern_matches_divergence :
    (Matcher.init ["ab", "cd"]).pattern_matches "abcd" = false ∧
    pattern_matches_spec (Matcher.init ["ab", "cd"]) "abcd" = true ∧
    (Matcher.init ["abc"]).pattern_matches "b" = true ∧
    pattern_matches_spec (Matcher.init ["abc"]) "b" = false :=
  of_decide_eq_true (by with_unfolding_all rfl)

/-- C2: the claim states that the first record of a cluster id triggers
exactly one scan of the companion shell script and later records of the same
cluster id reuse the cache without reading the file again.  In the code every
assignment into the cache uses the literal string ClusterId as the key while
the membership test looks for the integer cluster id, so the test never
succeeds: two consecutive records of cluster 7 each trigger a scan (read
counts 1 and 1, where the claim demands 1 and then 0), and the cache never
holds an entry for the integer key 7. -/
theorem c2_generator_cache_divergence :
    (get_generator fsGen [] rawg1).2.2 = 1 ∧
    (get_generator fsGen (get_generator fsGen [] rawg1).2.1 rawg2).2.2 = 1 ∧
    cacheLookup (get_generator fsGen [] rawg1).2.1 (GenKey.num 7) = none ∧
    (get_generator fsGen [] rawg1).1 = some "gemc" :=
  of_decide_eq_true (by with_unfolding_all rfl)

/-- C3: ingesting the Completed record (one attempt, one derived wall hour,
1800 CPU seconds) and then the Held record (two attempts, 7200 cumulative
slot seconds, 3600 cumulative CPU seconds) from zeroed tallies yields exactly
the totals the claim lists. -/
theorem c3_tally_scenario :
    ([jc3a, jc3b].foldl condor_tally tallies_init).goodwall = 3600 ∧
    ([jc3a, jc3b].foldl condor_tally tallies_init).goodcpu = 1800 ∧
    ([jc3a, jc3b].foldl condor_tally tallies_init).badwall = 7200 ∧
    ([jc3a, jc3b].foldl condor_tally tallies_init).badcpu = 3600 ∧
    ([jc3a, jc3b].foldl condor_tally tallies_init).totalwall = 10800 ∧
    ([jc3a, jc3b].foldl condor_tally tallies_init).totalcpu = 5400 := by
  norm_num +decide [List.foldl, condor_tally, tallies_init, jc3a, jc3b, plainJob,
    rawc3a, rawc3b, rawBase, wallhrQ, condor_calc_wallhr, job_states, round2,
    round_eq]

/-- C5 counterexample: an Idle record with a valid start timestamp.  The
claim as stated makes wall hours null only for the Removed, Held and Error
states, hence non-null here (24 hours to one decimal); the code returns null
for every state other than Completed and Running. -/
theorem c5_wallhr_counterexample :
    condor_calc_wallhr rawc5 90000 ≠ wallhr_spec_c5 rawc5 90000 ∧
    condor_calc_wallhr rawc5 90000 = none ∧
    wallhr_spec_c5 rawc5 90000 = some 24 :=
  of_decide_eq_true (by with_unfolding_all rfl)

/-- C6: the claim states that a missing or malformed field only degrades the
affected derived field to null and normalization never raises nor aborts the
load, naming a Completed record without a valid start timestamp and a record
with a missing raw argument string as examples.  On exactly those two inputs
the code raises (calling split on a missing Args string, and calling float on
the null wall hours of a Completed record) and the whole load aborts. -/
theorem c6_munge_raises :
    condor_munge argsEx fsEmpty 0 [("1.0", rawNoArgs)] =
      Except.error MungeErr.argsNone ∧
    condor_munge argsEx fsEmpty 0 [("1.0", rawCompNoStart)] =
      Except.error MungeErr.effWallhrNone := ⟨rfl, rfl⟩

/-- C5 amended: the derived wall hours of a record equal, for every record and
every current time, the amended specification: null unless the state is
Completed or Running; for those states the elapsed time from the start
timestamp to the completion timestamp (when present and nonzero, else the
current time) in hours to two decimals; null without a valid start. -/
theorem c5_wallhr_corrected (j : RawJob) (now : ℤ) :
    condor_calc_wallhr j now = wallhr_amended_c5 j now := by
  unfold condor_calc_wallhr wallhr_amended_c5
  have hd : ∀ q : ℚ, q / 60 / 60 = q / 3600 := fun q => by ring
  simp only [List.mem_cons, List.not_mem_nil, or_false, hd, gt_iff_lt]

/-- C5 amended witness: the theorem applied to the Completed record of the C3
scenario, where both sides evaluate to one wall hour. -/
theorem c5_wallhr_corrected_witness :
    condor_calc_wallhr rawc3a 0 = wallhr_amended_c5 rawc3a 0 ∧
    condor_calc_wallhr rawc3a 0 = some 1 := by
  refine ⟨c5_wallhr_corrected rawc3a 0, ?_⟩
  norm_num +decide [condor_calc_wallhr, rawc3a, rawBase, job_states, round2, round_eq]

/-! ## Helper lemmas on the tally fold (claim C4) -/

theorem tally_goodwall (t : Tallies) (j : Job) :
    (condor_tally t j).goodwall = t.goodwall + gwD j := by
  simp only [condor_tally, gwD]
  split_ifs <;> simp_all

theorem tally_badwall (t : Tallies) (j : Job) :
    (condor_tally t j).badwall = t.badwall + bwD j := by
  simp only [condor_tally, bwD]
  split_ifs <;> simp_all

theorem tally_goodcpu (t : Tallies) (j : Job) :
    (condor_tally t j).goodcpu = t.goodcpu + gcD j := by
  simp only [condor_tally, gcD]
  split_ifs <;> simp_all

theorem tally_badcpu (t : Tallies) (j : Job) :
    (condor_tally t j).badcpu = t.badcpu + bcD j := by
  simp only [condor_tally, bcD]
  split_ifs <;> simp_all

theorem tally_goodattempts (t : Tallies) (j : Job) :
    (condor_tally t j).goodattempts = t.goodattempts + gaD j := by
  simp only [condor_tally, gaD]
  split_ifs <;> simp_all

theorem tally_badattempts (t : Tallies) (j : Job) :
    (condor_tally t j).badattempts = t.badattempts + baD j := by
  simp only [condor_tally, baD]
  split_ifs <;> simp_all

theorem tally_totalwall (t : Tallies) (j : Job) :
    (condor_tally t j).totalwall =
      (condor_tally t j).badwall + (condor_tally t j).goodwall := rfl

theorem tally_totalcpu (t : Tallies) (j : Job) :
    (condor_tally t j).totalcpu =
      (condor_tally t j).badcpu + (condor_tally t j).goodcpu := rfl

theorem fold_goodwall (l : List Job) (t : Tallies) :
    (l.foldl condor_tally t).goodwall = t.goodwall + (l.map gwD).sum := by
  induction l generalizing t with
  | nil => simp
  | cons a as ih => simp [ih, tally_goodwall, add_assoc]

theorem fold_badwall (l : List Job) (t : Tallies) :
    (l.foldl condor_tally t).badwall = t.badwall + (l.map bwD).sum := by
  induction l generalizing t with
  | nil => simp
  | cons a as ih => simp [ih, tally_badwall, add_assoc]

theorem fold_goodcpu (l : List Job) (t : Tallies) :
    (l.foldl condor_tally t).goodcpu = t.goodcpu + (l.map gcD).sum := by
  induction l generalizing t with
  | nil => simp
  | cons a as ih => simp [ih, tally_goodcpu, add_assoc]

theorem fold_badcpu (l : List Job) (t : Tallies) :
    (l.foldl condor_tally t).badcpu = t.badcpu + (l.map bcD).sum := by
  induction l generalizing t with
  | nil => simp
  | cons a as ih => simp [ih, tally_badcpu, add_assoc]

theorem fold_goodattempts (l : List Job) (t : Tallies) :
    (l.foldl condor_tally t).goodattempts = t.goodattempts + (l.map gaD).sum := by
  induction l generalizing t with
  | nil => simp
  | cons a as ih => simp [ih, tally_goodattempts, add_assoc]

theorem fold_badattempts (l : List Job) (t : Tallies) :
    (l.foldl condor_tally t).badattempts = t.badattempts + (l.map baD).sum := by
  induction l generalizing t with
  | nil => simp
  | cons a as ih => simp [ih, tally_badattempts, add_assoc]

theorem fold_totalwall (l : List Job) (t : Tallies) (h : l ≠ []) :
    (l.foldl condor_tally t).totalwall =
      (l.foldl condor_tally t).badwall + (l.foldl condor_tally t).goodwall := by
  induction l generalizing t with
  | nil => exact absurd rfl h
  | cons a as ih =>
    cases as with
    | nil => simpa using tally_totalwall t a
    | cons b k => simpa using ih (condor_tally t a) (by simp)

theorem fold_totalcpu (l : List Job) (t : Tallies) (h : l ≠ []) :
    (l.foldl condor_tally t).totalcpu =
      (l.foldl condor_tally t).badcpu + (l.foldl condor_tally t).goodcpu := by
  induction l generalizing t with
  | nil => exact absurd rfl h
  | cons a as ih =>
    cases as with
    | nil => simpa using tally_totalcpu t a
    | cons b k => simpa using ih (condor_tally t a) (by simp)

theorem deltas_nonneg (j : Job) (h : tally_dominated j) :
    0 ≤ gwD j ∧ 0 ≤ bwD j ∧ 0 ≤ gcD j ∧ 0 ≤ bcD j := by
  obtain ⟨h0, h1, h2, h3⟩ := h
  have hw : (0 : ℚ) ≤ wallhrQ j * 60 * 60 := by
    have := mul_nonneg (mul_nonneg h0 (by norm_num : (0:ℚ) ≤ 60)) (by norm_num : (0:ℚ) ≤ 60)
    linarith
  refine ⟨?_, ?_, ?_, ?_⟩
  · unfold gwD; split_ifs <;> linarith
  · unfold bwD; split_ifs <;> linarith
  · unfold gcD; split_ifs <;> linarith
  · unfold bcD; split_ifs <;> linarith

/-- C4 counterexample: a Completed record with two attempts whose raw time
fields are all non-negative (cumulative slot and CPU seconds are zero, the
start and completion timestamps are positive) but whose ingestion decreases
the bad wall tally from zero to minus 3600: with non-negative raw time fields
alone the accumulated totals are not non-decreasing. -/
theorem c4_monotone_counterexample :
    (0 ≤ jc4.RemoteUserCpu ∧ 0 ≤ jc4.CumulativeSlotTime ∧
      0 ≤ jc4.CumulativeRemoteUserCpu ∧ jc4.NumJobStarts = 2 ∧
      jc4.JobCurrentStartDate = some 1000 ∧ jc4.CompletionDate = some 4600) ∧
    (condor_tally tallies_init jc4).badwall < tallies_init.badwall := by
  constructor
  · refine ⟨?_, ?_, ?_, ?_, ?_, ?_⟩ <;> norm_num [jc4, plainJob, rawc4, rawBase]
  · norm_num +decide [condor_tally, tallies_init, jc4, plainJob, rawc4, rawBase,
      wallhrQ, condor_calc_wallhr, job_states, round2, round_eq]

/-- C4 amended: the eight numeric tallies of the fold from the zeroed tallies
depend only on the multiset of ingested records (any two permuted ingestion
orders give the same numbers), and one ingestion step can only increase each
tally provided the record additionally satisfies the domination conditions
(non-negative derived wall hours and CPU seconds, cumulative slot and CPU
times at least the final instance's) and the incoming totals are consistent;
non-negative raw time fields alone do not suffice for the monotone half. -/
theorem c4_tally_order_independent_and_monotone :
    (∀ (p q : List Job), p.Perm q →
      tallyNums (p.foldl condor_tally tallies_init) =
        tallyNums (q.foldl condor_tally tallies_init)) ∧
    (∀ (t : Tallies) (j : Job), tally_dominated j →
      t.totalwall = t.badwall + t.goodwall →
      t.totalcpu = t.badcpu + t.goodcpu →
      t.goodwall ≤ (condor_tally t j).goodwall ∧
      t.badwall ≤ (condor_tally t j).badwall ∧
      t.goodcpu ≤ (condor_tally t j).goodcpu ∧
      t.badcpu ≤ (condor_tally t j).badcpu ∧
      t.goodattempts ≤ (condor_tally t j).goodattempts ∧
      t.badattempts ≤ (condor_tally t j).badattempts ∧
      t.totalwall ≤ (condor_tally t j).totalwall ∧
      t.totalcpu ≤ (condor_tally t j).totalcpu) := by
  constructor
  · intro p q h
    rcases p with _ | ⟨a, as⟩
    · rw [h.symm.eq_nil]
    · have hq : q ≠ [] := by
        intro he
        rw [he] at h
        exact List.cons_ne_nil a as h.eq_nil
      have hp : (a :: as) ≠ [] := List.cons_ne_nil a as
      unfold tallyNums
      have e1 := (h.map gwD).sum_eq
      have e2 := (h.map bwD).sum_eq
      have e3 := (h.map gcD).sum_eq
      have e4 := (h.map bcD).sum_eq
      have e5 := (h.map gaD).sum_eq
      have e6 := (h.map baD).sum_eq
      simp only [fold_goodwall, fold_badwall, fold_goodcpu, fold_badcpu,
        fold_goodattempts, fold_badattempts, fold_totalwall _ _ hp,
        fold_totalwall _ _ hq, fold_totalcpu _ _ hp, fold_totalcpu _ _ hq,
        e1, e2, e3, e4, e5, e6]
  · intro t j hd h1 h2
    obtain ⟨d1, d2, d3, d4⟩ := deltas_nonneg j hd
    refine ⟨?_, ?_, ?_, ?_, ?_, ?_, ?_, ?_⟩
    · rw [tally_goodwall]; linarith
    · rw [tally_badwall]; linarith
    · rw [tally_goodcpu]; linarith
    · rw [tally_badcpu]; linarith
    · rw [tally_goodattempts]; exact Nat.le_add_right _ _
    · rw [tally_badattempts]; exact Nat.le_add_right _ _
    · rw [tally_totalwall, tally_badwall, tally_goodwall]; linarith
    · rw [tally_totalcpu, tally_badcpu, tally_goodcpu]; linarith

/-- C4 witness: the amended theorem applied to the two C3 records, swapped
(a permutation of two concrete records), and to one monotone step on the Held
record from the zeroed tallies. -/
theorem c4_tally_amended_witness :
    tallyNums ([jc3a, jc3b].foldl condor_tally tallies_init) =
      tallyNums ([jc3b, jc3a].foldl condor_tally tallies_init) ∧
    tallies_init.badwall ≤ (condor_tally tallies_init jc3b).badwall := by
  constructor
  · exact c4_tally_order_independent_and_monotone.1 [jc3a, jc3b] [jc3b, jc3a]
      (List.Perm.swap jc3b jc3a [])
  · refine (c4_tally_order_independent_and_monotone.2 tallies_init jc3b
      ?_ (by norm_num [tallies_init]) (by norm_num [tallies_init])).2.1
    refine ⟨?_, ?_, ?_, ?_⟩ <;>
      norm_num +decide [wallhrQ, jc3b, plainJob, rawc3b, rawBase,
        condor_calc_wallhr, job_states]

/-- Whenever normalization of a record whose log path does not parse (either
no UserLog or the pattern does not match) completes without raising, the
derived condor field of the resulting job is null. -/
theorem condor_munge_job_condor_none (args : Args) (fs : FS) (now : ℤ)
    (cache : GenCache) (key : String) (raw : RawJob) (j : Job) (cache2 : GenCache)
    (hparse : raw.UserLog.bind logPathParse = none)
    (h : condor_munge_job args fs now cache key raw = Except.ok (j, cache2)) :
    j.condor = none := by
  unfold condor_munge_job at h
  rcases hA : raw.Args with _ | a <;> rw [hA] at h
  · simp [Except.bind, Bind.bind] at h
  · simp only [hparse, Option.map_none', Option.isSome_none, Bool.false_eq_true,
      if_false, Except.bind, Bind.bind, Pure.pure, Except.pure] at h
    split at h
    · split at h
      · simp at h
      · simp only [Except.ok.injEq, Prod.mk.injEq] at h
        rw [← h.1]
    · simp only [Except.ok.injEq, Prod.mk.injEq] at h
      rw [← h.1]

/-- C7: for a record whose log path matches the fixed pattern (and whose Args
string is present, so normalization reaches the consistency check),
normalization raises the fatal id-mismatch error exactly when the composite
id re-derived from the path differs from the key the record is stored under;
when they agree that error is never raised. -/
theorem c7_log_key_consistency (args : Args) (fs : FS) (now : ℤ)
    (cache : GenCache) (key : String) (raw : RawJob) (a p u g c pr : String)
    (hA : raw.Args = some a) (hU : raw.UserLog = some p)
    (hP : logPathParse p = some (u, g, c, pr)) :
    condor_munge_job args fs now cache key raw = Except.error MungeErr.idMismatch ↔
      key ≠ c ++ "." ++ pr := by
  unfold condor_munge_job
  rw [hA, hU]
  simp only [Option.some_bind, hP, Option.map_some', Option.isSome_some, if_true,
    Except.bind, Bind.bind, Pure.pure, Except.pure]
  by_cases hk : key = c ++ "." ++ pr
  · subst hk
    simp only [ne_eq, not_true_eq_false, if_false, iff_false, ite_false]
    intro hh
    split at hh
    · split at hh <;> simp at hh
    · simp at hh
  · simp only [hk, ne_eq, not_false_eq_true, if_true, ite_true, iff_true]

/-- C7 witness: the record whose log path encodes scheduler id 7.1 raises the
fatal mismatch error when stored under key 7.2 and does not raise it when
stored under key 7.1. -/
theorem c7_log_key_consistency_witness :
    condor_munge_job argsEx fsEmpty 0 [] "7.2" raw7 =
      Except.error MungeErr.idMismatch ∧
    condor_munge_job argsEx fsEmpty 0 [] "7.1" raw7 ≠
      Except.error MungeErr.idMismatch := by
  constructor
  · exact (c7_log_key_consistency argsEx fsEmpty 0 [] "7.2" raw7 "11 22"
      "/u/job_11/log/job.7.1.log" "u" "11" "7" "1" rfl rfl (by decide)).mpr
      (by decide)
  · intro h
    exact (c7_log_key_consistency argsEx fsEmpty 0 [] "7.1" raw7 "11 22"
      "/u/job_11/log/job.7.1.log" "u" "11" "7" "1" rfl rfl (by decide)).mp h rfl

/-- C10: condor_match returns a boolean admission decision exactly for records
whose derived condor field is non-null; on a null condor field it raises
instead of admitting or rejecting, and normalization leaves condor null
whenever it completes on a record whose UserLog is absent or whose log path
does not match the fixed pattern. -/
theorem c10_condor_match_null_condor :
    (∀ (args : Args) (j : Job), j.condor = none →
      condor_match args j = Except.error MatchErr.nullCondor) ∧
    (∀ (args : Args) (j : Job) (c : String), j.condor = some c →
      condor_match args j = Except.ok (condor_match_body args j c)) ∧
    (∀ (args : Args) (fs : FS) (now : ℤ) (cache : GenCache) (key : String)
      (raw : RawJob) (j : Job) (cache2 : GenCache), raw.UserLog = none →
      condor_munge_job args fs now cache key raw = Except.ok (j, cache2) →
      j.condor = none) ∧
    (∀ (args : Args) (fs : FS) (now : ℤ) (cache : GenCache) (key : String)
      (raw : RawJob) (p : String) (j : Job) (cache2 : GenCache),
      raw.UserLog = some p → logPathParse p = none →
      condor_munge_job args fs now cache key raw = Except.ok (j, cache2) →
      j.condor = none) := by
  refine ⟨?_, ?_, ?_, ?_⟩
  · intro args j h; unfold condor_match; rw [h]
  · intro args j c h; unfold condor_match; rw [h]
  · intro args fs now cache key raw j cache2 hU h
    exact condor_munge_job_condor_none args fs now cache key raw j cache2
      (by simp [hU]) h
  · intro args fs now cache key raw p j cache2 hU hP h
    exact condor_munge_job_condor_none args fs now cache key raw j cache2
      (by simp [hU, hP]) h

/-- C10 witness: the theorem applied to a concrete normalized record with a
null condor field (condor_match raises) and to one with condor 1.0
(condor_match returns a boolean). -/
theorem c10_condor_match_null_condor_witness :
    condor_match argsEx (plainJob rawBase 0) =
      Except.error MatchErr.nullCondor ∧
    condor_match argsEx j10c = Except.ok (condor_match_body argsEx j10c "1.0") := by
  constructor
  · exact c10_condor_match_null_condor.1 argsEx (plainJob rawBase 0) rfl
  · exact c10_condor_match_null_condor.2.1 argsEx j10c "1.0" rfl

/-! ## Helper lemmas on the ordered-dictionary fold (claim C8) -/

theorem alSet_mem {κ β : Type} [DecidableEq κ] (l : List (κ × β)) (k : κ) (v : β)
    (q : κ × β) (hq : q ∈ alSet l k v) : q ∈ l ∨ q.2 = v := by
  unfold alSet at hq
  split_ifs at hq
  · rcases List.mem_map.mp hq with ⟨r, hr, he⟩
    by_cases hk : r.1 = k
    · right; rw [← he]; simp [hk]
    · left
      rw [if_neg hk] at he
      rw [← he]; exact hr
  · rcases List.mem_append.mp hq with h | h
    · left; exact h
    · right
      have : q = (k, v) := by simpa using h
      rw [this]

/-- One application of cgroup_apply restores the done-count identity, whatever
the incoming group was: done is recomputed as TotalSubmitProcs minus the held,
idle and run counts on every fold step. -/
theorem cgroup_apply_done (g : CGroup) (j : Job) :
    (cgroup_apply g j).done + (cgroup_apply g j).held + (cgroup_apply g j).idle +
      (cgroup_apply g j).run = ((cgroup_apply g j).TotalSubmitProcs : ℤ) := by
  unfold cgroup_apply cgroup_inc
  split_ifs <;> (try split) <;> (try split) <;> push_cast <;> ring

theorem cluster_fold_inv (l : List (String × Job)) (acc : List (String × CGroup))
    (hacc : ∀ q ∈ acc,
      q.2.done + q.2.held + q.2.idle + q.2.run = (q.2.TotalSubmitProcs : ℤ)) :
    ∀ q ∈ l.foldl cluster_step acc,
      q.2.done + q.2.held + q.2.idle + q.2.run = (q.2.TotalSubmitProcs : ℤ) := by
  induction l generalizing acc with
  | nil => simpa using hacc
  | cons x xs ih =>
    intro q hq
    refine ih (cluster_step acc x) ?_ q (by simpa using hq)
    intro r hr
    rcases alSet_mem acc (firstPart x.1 '.')
        (cgroup_apply ((alGet acc (firstPart x.1 '.')).getD (cgroup_of_job x.2)) x.2)
        r hr with h | h
    · exact hacc r h
    · rw [h]; exact cgroup_apply_done _ _

/-- C8: every group of the cluster summary satisfies done plus held plus idle
plus run equals the TotalSubmitProcs the group inherited. -/
theorem c8_cluster_done_invariant (l : List (String × Job)) (k : String)
    (g : CGroupOut) (hg : (k, g) ∈ condor_cluster_summary l) :
    g.done + g.held + g.idle + g.run = (g.TotalSubmitProcs : ℤ) := by
  unfold condor_cluster_summary at hg
  rcases List.mem_map.mp hg with ⟨q, hq, he⟩
  have hinv := cluster_fold_inv l [] (by simp) q hq
  have hge : g = cgroup_finalize q.2 := by
    have hsnd := congrArg Prod.snd he
    simpa using hsnd.symm
  rw [hge]
  simpa [cgroup_finalize] using hinv

/-- C8 witness: the theorem applied to the one-record input c8wL, whose single
group satisfies the identity with one held record out of one submitted
process. -/
theorem c8_cluster_done_invariant_witness :
    c8wG.done + c8wG.held + c8wG.idle + c8wG.run = (c8wG.TotalSubmitProcs : ℤ) :=
  c8_cluster_done_invariant c8wL "1" c8wG (by
    have h : condor_cluster_summary c8wL = [("1", c8wG)] := rfl
    rw [h]
    exact List.mem_singleton.mpr rfl)

/-! ## Helper lemmas on the stable insertion sort (claim C9) -/

theorem ordIns_mem {α : Type} (val : α → ℕ) (x : α) (l : List α) (z : α)
    (h : z ∈ ordIns val x l) : z = x ∨ z ∈ l := by
  induction l with
  | nil => simpa [ordIns] using h
  | cons y ys ih =>
    unfold ordIns at h
    split_ifs at h
    · rcases List.mem_cons.mp h with h | h
      · left; exact h
      · right; exact h
    · rcases List.mem_cons.mp h with h | h
      · right; rw [h]; exact List.mem_cons_self y ys
      · rcases ih h with h | h
        · left; exact h
        · right; exact List.mem_cons_of_mem y h

theorem ordIns_sorted {α : Type} (val : α → ℕ) (x : α) (l : List α)
    (h : l.Pairwise (fun a b => val b ≤ val a)) :
    (ordIns val x l).Pairwise (fun a b => val b ≤ val a) := by
  induction l with
  | nil => simp [ordIns]
  | cons y ys ih =>
    rcases List.pairwise_cons.mp h with ⟨h1, h2⟩
    unfold ordIns
    split_ifs with hc
    · refine List.Pairwise.cons ?_ h
      intro b hb
      rcases List.mem_cons.mp hb with hb' | hb'
      · rw [hb']; exact le_of_lt hc
      · exact le_trans (h1 b hb') (le_of_lt hc)
    · refine List.Pairwise.cons ?_ (ih h2)
      intro b hb
      rcases ordIns_mem val x ys b hb with hb' | hb'
      · rw [hb']; exact le_of_not_lt hc
      · exact h1 b hb'

theorem sort_go_sorted {α : Type} (val : α → ℕ) (xs acc : List α)
    (h : acc.Pairwise (fun a b => val b ≤ val a)) :
    (sort_go val acc xs).Pairwise (fun a b => val b ≤ val a) := by
  induction xs generalizing acc with
  | nil => simpa [sort_go] using h
  | cons x xs ih =>
    simp only [sort_go]
    exact ih (ordIns val x acc) (ordIns_sorted val x acc h)

theorem ordIns_filter_eq {α : Type} (val : α → ℕ) (x : α) (l : List α) (t : ℕ)
    (hs : l.Pairwise (fun a b => val b ≤ val a)) (hx : val x = t) :
    (ordIns val x l).filter (fun a => decide (val a = t)) =
      l.filter (fun a => decide (val a = t)) ++ [x] := by
  induction l with
  | nil => simp [ordIns, hx]
  | cons y ys ih =>
    rcases List.pairwise_cons.mp hs with ⟨h1, h2⟩
    unfold ordIns
    split_ifs with hc
    · have hnil : (y :: ys).filter (fun a => decide (val a = t)) = [] := by
        rw [List.filter_eq_nil_iff]
        intro a ha
        have : val a ≤ val y := by
          rcases List.mem_cons.mp ha with ha' | ha'
          · rw [ha']
          · exact h1 a ha'
        simp only [decide_eq_true_eq]
        omega
      rw [hnil]
      simp [List.filter_cons, hx, hnil]
    · simp only [List.filter_cons]
      rw [ih h2]
      by_cases hy : val y = t
      · simp [hy]
      · simp [hy]

theorem ordIns_filter_ne {α : Type} (val : α → ℕ) (x : α) (l : List α) (t : ℕ)
    (hx : val x ≠ t) :
    (ordIns val x l).filter (fun a => decide (val a = t)) =
      l.filter (fun a => decide (val a = t)) := by
  induction l with
  | nil => simp [ordIns, hx]
  | cons y ys ih =>
    unfold ordIns
    split_ifs with hc
    · simp [List.filter_cons, hx]
    · simp only [List.filter_cons]
      rw [ih]

theorem sort_go_filter {α : Type} (val : α → ℕ) (xs acc : List α) (t : ℕ)
    (h : acc.Pairwise (fun a b => val b ≤ val a)) :
    (sort_go val acc xs).filter (fun a => decide (val a = t)) =
      acc.filter (fun a => decide (val a = t)) ++
        xs.filter (fun a => decide (val a = t)) := by
  induction xs generalizing acc with
  | nil => simp [sort_go]
  | cons x xs ih =>
    simp only [sort_go]
    rw [ih (ordIns val x acc) (ordIns_sorted val x acc h)]
    by_cases hx : val x = t
    · rw [ordIns_filter_eq val x acc t h hx]
      simp [List.filter_cons, hx]
    · rw [ordIns_filter_ne val x acc t hx]
      simp [List.filter_cons, hx]

theorem sort_dict_filter {α : Type} (val : α → ℕ) (l : List α) (t : ℕ) :
    (sort_dict val l).filter (fun a => decide (val a = t)) =
      l.filter (fun a => decide (val a = t)) := by
  simpa [sort_dict] using sort_go_filter val l [] t (by simp)

theorem sort_dict_sorted {α : Type} (val : α → ℕ) (l : List α) :
    (sort_dict val l).Pairwise (fun a b => val b ≤ val a) :=
  sort_go_sorted val l [] (by simp)

/-- C9: the site-summary groups come out sorted descending by their total
count; among groups with equal totals the first-seen grouping order is kept
exactly (the filter at each total is unchanged by the sort); and the concrete
three-site instance with totals 5, 9, 3 (first seen in the order A, B, C)
renders as B, A, C. -/
theorem c9_site_summary_ordering :
    (∀ (args : Args) (l : List (String × Job)),
      (condor_site_summary args l).Pairwise (fun a b => b.2.total ≤ a.2.total)) ∧
    (∀ (args : Args) (l : List (String × Job)) (t : ℕ),
      (condor_site_summary args l).filter (fun q => decide (q.2.total = t)) =
        ((condor_site_fold args l).map
            (fun q => (q.1, sgroup_finalize args q.2))).filter
          (fun q => decide (q.2.total = t))) ∧
    (condor_site_summary argsEx c9recs).map (fun q => q.1) =
      [some "B", some "A", some "C"] ∧
    (condor_site_fold argsEx c9recs).map (fun q => (q.1, q.2.total)) =
      [(some "A", 5), (some "B", 9), (some "C", 3)] := by
  refine ⟨?_, ?_, ?_, ?_⟩
  · intro args l
    exact sort_dict_sorted (fun q : Option String × SGroupOut => q.2.total) _
  · intro args l t
    exact sort_dict_filter (fun q : Option String × SGroupOut => q.2.total) _ t
  · decide
  · decide

end Clas12
